import Mathlib

/-
Verification of the Taskade GraphQL backend (src/src/index.js, second revision):
a shallow embedding of the resolver logic, the request-context builder and the
sign-in flow, with the MongoDB driver calls modelled as explicit operations on
an in-memory document store.  External collaborators (jwt, bcrypt) are taken
as function parameters, so that the theorems quantify over their behaviour.
-/

set_option autoImplicit false

namespace Taskade

/-- A MongoDB ObjectId, identified by its hex-string form.  `ObjectId(s)` in the
source wraps a string; `toString` recovers it. -/
structure ObjectId where
  s : String
deriving DecidableEq, Repr

/-- `ObjectId(...)` constructor as called in the source. -/
def objectId (s : String) : ObjectId := ⟨s⟩

/-- `toString()` on an ObjectId. -/
def ObjectId.toStr (o : ObjectId) : String := o.s

/-- A document of the `Users` collection, as stored by signUp. -/
structure User where
  _id : ObjectId
  name : String
  email : String
  password : String
  avatar : Option String
deriving DecidableEq, Repr

/-- A document of the `TaskList` collection, as stored by createTaskList. -/
structure TaskList where
  _id : ObjectId
  title : String
  createdAt : String
  userIds : List ObjectId
deriving DecidableEq, Repr

/-- The document store: the two collections in natural (insertion) order plus a
counter from which the driver generates fresh inserted ids. -/
structure DB where
  users : List User
  taskLists : List TaskList
  nextId : Nat
deriving DecidableEq, Repr

/-- `db.collection("TaskList").findOne({ _id: oid })`: first document whose
`_id` equals the filter value. -/
def DB.findTaskListById (db : DB) (oid : ObjectId) : Option TaskList :=
  db.taskLists.find? (fun tl => decide (tl._id = oid))

/-- `db.collection("Users").findOne({ _id: oid })`. -/
def DB.findUserById (db : DB) (oid : ObjectId) : Option User :=
  db.users.find? (fun u => decide (u._id = oid))

/-- `db.collection("Users").findOne({ email: e })`. -/
def DB.findUserByEmail (db : DB) (e : String) : Option User :=
  db.users.find? (fun u => decide (u.email = e))

/-- `updateOne` touches only the first matching document. -/
def updateFirst {α : Type} (p : α → Bool) (f : α → α) : List α → List α
  | [] => []
  | x :: xs => if p x then f x :: xs else x :: updateFirst p f xs

/-- `updateOne({ _id: oid }, { $set: { title } })` on the `TaskList` collection. -/
def DB.updateTaskListTitle (db : DB) (oid : ObjectId) (title : String) : DB :=
  let ls := updateFirst (fun tl => decide (tl._id = oid))
    (fun tl => { tl with title := title }) db.taskLists
  { db with taskLists := ls }

/-- `updateOne({ _id: oid }, { $push: { userIds: uid } })` on `TaskList`. -/
def DB.pushTaskListUserId (db : DB) (oid : ObjectId) (uid : ObjectId) : DB :=
  let ls := updateFirst (fun tl => decide (tl._id = oid))
    (fun tl => { tl with userIds := tl.userIds ++ [uid] }) db.taskLists
  { db with taskLists := ls }

/-- `deleteOne({ _id: oid })` on `TaskList`: removes the first matching document
and reports `deletedCount`. -/
def DB.deleteOneTaskList (db : DB) (oid : ObjectId) : DB × Nat :=
  ({ db with taskLists := db.taskLists.eraseP (fun tl => decide (tl._id = oid)) },
   if db.taskLists.any (fun tl => decide (tl._id = oid)) then 1 else 0)

/-- The ObjectId the driver generates for the next `insertOne`. -/
def DB.genOid (db : DB) : ObjectId := ⟨"oid" ++ Nat.repr db.nextId⟩

/-- `insertOne` on `TaskList`: appends the document with a driver-generated
`_id` and returns `insertedId`. -/
def DB.insertTaskList (db : DB) (title createdAt : String)
    (userIds : List ObjectId) : ObjectId × DB :=
  (db.genOid,
   { db with
       taskLists := db.taskLists ++ [⟨db.genOid, title, createdAt, userIds⟩],
       nextId := db.nextId + 1 })

/-- The decoded jwt payload: `{ id: user._id }` signed by getToken; the `id`
field may be missing. -/
structure Payload where
  id : Option String
deriving DecidableEq, Repr

/-- The per-request context bundle `{ db, user }`. -/
structure Context where
  db : DB
  user : Option User
deriving DecidableEq, Repr

/-- The AuthUser response value `{ user, token }`. -/
structure AuthUser where
  user : User
  token : String
deriving DecidableEq, Repr

/-- The message of `new Error("Authentication Error. Please sign in")`. -/
def authErrorMsg : String := "Authentication Error. Please sign in"

/-- The message of `new Error("Invalid credentials!")`. -/
def invalidCredMsg : String := "Invalid credentials!"

/-- Result of a resolver: the value or thrown error, the document store after
the call, and the log of persistence operations performed, in order. -/
abbrev Resolved (α : Type) : Type := Except String α × DB × List String

/--
`getUserFromToken(token, db)`.  `token` is the raw authorization header
(absent, or a string where the empty string is falsy like absence);
`verify` is `jwt.verify(token, JWT_SECRET)`, which throws (`Except.error`)
on a malformed/expired/badly signed token — the source does not catch it.
A verified payload whose `id` is missing (or falsy, i.e. empty) yields null.
-/
def getUserFromToken (verify : String → Except String Payload)
    (token : Option String) (db : DB) : Except String (Option User) :=
  match token with
  | none => .ok none
  | some t =>
    if t = "" then .ok none
    else
      match verify t with
      | .error e => .error e
      | .ok tokenData =>
        match tokenData.id with
        | none => .ok none
        | some i =>
          if i = "" then .ok none
          else .ok (db.findUserById (objectId i))

/-- The ApolloServer `context` function: resolves the authorization header via
`getUserFromToken` (whose failure propagates, aborting the request) and bundles
`{ db, user }`. -/
def serverContext (verify : String → Except String Payload)
    (authHeader : Option String) (db : DB) : Except String Context :=
  match getUserFromToken verify authHeader db with
  | .error e => .error e
  | .ok u => .ok ⟨db, u⟩

/-- `getToken(user)`: signs `{ id: user._id }`; `sign` is the jwt signer. -/
def getToken (sign : ObjectId → String) (user : User) : String :=
  sign user._id

/-- Resolver `Query.myTaskLists`: authentication check, then
`find({ userIds: user._id })` — all lists whose userIds array contains the
caller's `_id`, in natural order. -/
def myTaskLists (db : DB) (user : Option User) : Resolved (List TaskList) :=
  match user with
  | none => (.error authErrorMsg, db, [])
  | some u =>
    (.ok (db.taskLists.filter (fun tl => decide (u._id ∈ tl.userIds))), db,
     ["TaskList.find"])

/-- Resolver `Query.getTaskList`: authentication check, then
`findOne({ _id: ObjectId(id) })`. -/
def getTaskList (db : DB) (user : Option User) (id : String) :
    Resolved (Option TaskList) :=
  match user with
  | none => (.error authErrorMsg, db, [])
  | some _ => (.ok (db.findTaskListById (objectId id)), db, ["TaskList.findOne"])

/-- Resolver `Mutation.signIn`: exact email lookup, then
`bcrypt.compareSync(input.password, user.password)`; both the missing-user and
the wrong-password branches throw the same `"Invalid credentials!"`. -/
def signIn (compare : String → String → Bool) (sign : ObjectId → String)
    (db : DB) (email password : String) : Except String AuthUser :=
  match db.findUserByEmail email with
  | none => .error invalidCredMsg
  | some user =>
    if compare password user.password then .ok ⟨user, getToken sign user⟩
    else .error invalidCredMsg

/-- Resolver `Mutation.createTaskList`: authentication check, then inserts
`{ title, createdAt: new Date().toISOString(), userIds: [user._id] }` and
returns the read-back of the inserted id.  `now` stands for the call-time
timestamp string. -/
def createTaskList (db : DB) (user : Option User) (title now : String) :
    Resolved (Option TaskList) :=
  match user with
  | none => (.error authErrorMsg, db, [])
  | some u =>
    let inserted := db.insertTaskList title now [u._id]
    (.ok (inserted.2.findTaskListById inserted.1), inserted.2,
     ["TaskList.insertOne", "TaskList.findOne"])

/-- Resolver `Mutation.updateTaskList`: authentication check, then
`updateOne({ _id }, { $set: { title } })` followed by a read-back `findOne`. -/
def updateTaskList (db : DB) (user : Option User) (id title : String) :
    Resolved (Option TaskList) :=
  match user with
  | none => (.error authErrorMsg, db, [])
  | some _ =>
    let db1 := db.updateTaskListTitle (objectId id) title
    (.ok (db1.findTaskListById (objectId id)), db1,
     ["TaskList.updateOne", "TaskList.findOne"])

/-- Resolver `Mutation.deleteTaskList`: authentication check, then
`deleteOne({ _id: ObjectId(id) })`; returns
`result.deletedCount == 0 ? false : true`. -/
def deleteTaskList (db : DB) (user : Option User) (id : String) :
    Resolved Bool :=
  match user with
  | none => (.error authErrorMsg, db, [])
  | some _ =>
    let result := db.deleteOneTaskList (objectId id)
    (.ok (!(result.2 == 0)), result.1, ["TaskList.deleteOne"])

/-- Resolver `Mutation.addUserToTaskList`: authentication check; `findOne` the
list (absent → null); if some member id already has the argument's string form
(`dbId.toString() === userId.toString()`) the list is returned unchanged;
otherwise `$push`es `ObjectId(userId)` and returns the read-back. -/
def addUserToTaskList (db : DB) (user : Option User)
    (taskListId userId : String) : Resolved (Option TaskList) :=
  match user with
  | none => (.error authErrorMsg, db, [])
  | some _ =>
    match db.findTaskListById (objectId taskListId) with
    | none => (.ok none, db, ["TaskList.findOne"])
    | some taskList =>
      if (taskList.userIds.find? (fun dbId => decide (dbId.toStr = userId))).isSome
      then (.ok (some taskList), db, ["TaskList.findOne"])
      else
        let db1 := db.pushTaskListUserId (objectId taskListId) (objectId userId)
        (.ok (db1.findTaskListById (objectId taskListId)), db1,
         ["TaskList.findOne", "TaskList.updateOne", "TaskList.findOne"])

/-- Field resolver `TaskList.users`: one `Users.findOne({ _id: userId })` per
stored id, results in input order (`Promise.all` over `userIds.map`); a missing
user yields a null entry at its position. -/
def taskListUsers (db : DB) (userIds : List ObjectId) : List (Option User) :=
  userIds.map (fun userId => db.findUserById userId)

/-- Field resolver `TaskList.progress`: constant 0. -/
def taskListProgress : Nat := 0

/-! Concrete fixtures used to evaluate the theorems on closed inputs. -/

/-- A concrete user. -/
def cu1 : User := ⟨⟨"u1"⟩, "Alice", "alice@x", "pw1#", none⟩

/-- A second concrete user, with a different identifier. -/
def cu2 : User := ⟨⟨"u2"⟩, "Bob", "bob@x", "pw2#", none⟩

/-- A concrete task list whose only member is `cu1`. -/
def ctl1 : TaskList := ⟨⟨"l1"⟩, "groceries", "2024-01-01", [⟨"u1"⟩]⟩

/-- A concrete document store holding `cu1`, `cu2` and `ctl1`. -/
def cdb : DB := ⟨[cu1, cu2], [ctl1], 0⟩

/-- The empty document store. -/
def cdbEmpty : DB := ⟨[], [], 0⟩

/-- A concrete token verifier that rejects every token. -/
def cverifyBad (t : String) : Except String Payload := .error ("jwt malformed: " ++ t)

/-- A concrete token verifier that accepts every token with an id-less payload. -/
def cverifyNoId (_ : String) : Except String Payload := .ok ⟨none⟩

/-- A concrete password comparator: the hash of `p` is `p ++ "#"`. -/
def ccompare (p h : String) : Bool := h = p ++ "#"

/-- A concrete token signer. -/
def csign (o : ObjectId) : String := "tok:" ++ o.s

/-! Helper lemmas about the list operations backing the document store. -/

theorem find?_append_of_none {α : Type} (p : α → Bool) (l1 l2 : List α)
    (h : l1.find? p = none) : (l1 ++ l2).find? p = l2.find? p := by
  induction l1 with
  | nil => simp
  | cons x xs ih =>
    cases hx : p x with
    | true => rw [List.find?_cons_of_pos _ hx] at h; exact absurd h (by simp)
    | false =>
      rw [List.find?_cons_of_neg _ (by simp [hx])] at h
      rw [List.cons_append, List.find?_cons_of_neg _ (by simp [hx])]
      exact ih h

theorem find?_updateFirst {α : Type} (p : α → Bool) (g : α → α)
    (hp : ∀ x, p (g x) = p x) (l : List α) :
    (updateFirst p g l).find? p = (l.find? p).map g := by
  induction l with
  | nil => simp [updateFirst]
  | cons x xs ih =>
    cases hx : p x with
    | true =>
      have hg : p (g x) = true := by rw [hp x]; exact hx
      simp [updateFirst, hx, List.find?_cons_of_pos _ hg,
        List.find?_cons_of_pos _ hx]
    | false =>
      have hx' : ¬ p x = true := by simp [hx]
      have hu : updateFirst p g (x :: xs) = x :: updateFirst p g xs := by
        simp [updateFirst, hx]
      rw [hu, List.find?_cons_of_neg _ hx', List.find?_cons_of_neg _ hx']
      exact ih

theorem countP_eraseP_eq_zero {α : Type} (p : α → Bool) (l : List α)
    (h : l.countP p ≤ 1) : (l.eraseP p).countP p = 0 := by
  induction l with
  | nil => simp
  | cons x xs ih =>
    cases hx : p x with
    | true =>
      rw [List.eraseP_cons_of_pos hx]
      rw [List.countP_cons_of_pos _ _ hx] at h
      omega
    | false =>
      have hx' : ¬ p x = true := by simp [hx]
      rw [List.eraseP_cons_of_neg hx', List.countP_cons_of_neg _ _ hx']
      rw [List.countP_cons_of_neg _ _ hx'] at h
      exact ih h

/-! The claims. -/

/-- Claim C1: each of the six Task List Domain Logic operations, invoked with
an anonymous context (`user` absent), fails with the authentication error,
leaves the store untouched, and performs no persistence access (empty log). -/
theorem claim_c1 (db : DB) (id title now taskListId userId : String) :
    myTaskLists db none = (.error authErrorMsg, db, []) ∧
    getTaskList db none id = (.error authErrorMsg, db, []) ∧
    createTaskList db none title now = (.error authErrorMsg, db, []) ∧
    updateTaskList db none id title = (.error authErrorMsg, db, []) ∧
    deleteTaskList db none id = (.error authErrorMsg, db, []) ∧
    addUserToTaskList db none taskListId userId = (.error authErrorMsg, db, []) :=
  ⟨rfl, rfl, rfl, rfl, rfl, rfl⟩

/-- Claim C2: the request-context builder turns an absent bearer token into an
anonymous context (not an error), while a present (nonempty) token on which
verification fails propagates that failure, aborting the whole request. -/
theorem claim_c2 (verify : String → Except String Payload) (db : DB) :
    serverContext verify none db = .ok ⟨db, none⟩ ∧
    ∀ t e, t ≠ "" → verify t = .error e →
      serverContext verify (some t) db = .error e := by
  refine ⟨rfl, fun t e ht hv => ?_⟩
  simp [serverContext, getUserFromToken, ht, hv]

/-- Witness for C2: a concrete rejected token aborts the request with the
verifier's error. -/
theorem claim_c2_witness :
    serverContext cverifyBad (some "bad") cdb = .error "jwt malformed: bad" :=
  (claim_c2 cverifyBad cdb).2 "bad" "jwt malformed: bad" (by decide) rfl

/-- Claim C6: sign-in with an email matching no user and sign-in with a correct
email but failing password check throw the very same "Invalid credentials!"
error; on success the matched user is returned with a freshly signed token. -/
theorem claim_c6 (compare : String → String → Bool) (sign : ObjectId → String)
    (db : DB) (email password : String) :
    (db.findUserByEmail email = none →
      signIn compare sign db email password = .error invalidCredMsg) ∧
    (∀ us, db.findUserByEmail email = some us →
      compare password us.password = false →
      signIn compare sign db email password = .error invalidCredMsg) ∧
    (∀ us, db.findUserByEmail email = some us →
      compare password us.password = true →
      signIn compare sign db email password = .ok ⟨us, sign us._id⟩) := by
  refine ⟨fun h => ?_, fun us h hc => ?_, fun us h hc => ?_⟩
  · simp [signIn, h]
  · simp [signIn, h, hc]
  · simp [signIn, h, hc, getToken]

/-- Witness for C6: on the concrete store, a wrong password and an unknown
email produce the identical error, and the right password signs in `cu1`. -/
theorem claim_c6_witness :
    signIn ccompare csign cdb "alice@x" "wrong" = .error invalidCredMsg ∧
    signIn ccompare csign cdb "nobody@x" "wrong" = .error invalidCredMsg ∧
    signIn ccompare csign cdb "alice@x" "pw1" = .ok ⟨cu1, "tok:u1"⟩ :=
  ⟨(claim_c6 ccompare csign cdb "alice@x" "wrong").2.1 cu1 rfl rfl,
   (claim_c6 ccompare csign cdb "nobody@x" "wrong").1 rfl,
   (claim_c6 ccompare csign cdb "alice@x" "pw1").2.2 cu1 rfl rfl⟩

/-- Claim C9: addUserToTaskList on a taskListId matching no stored list returns
null (not an error), leaves the store unchanged, and performs no write (the
log holds only the lookup). -/
theorem claim_c9 (db : DB) (u : User) (taskListId userId : String)
    (h : db.findTaskListById (objectId taskListId) = none) :
    addUserToTaskList db (some u) taskListId userId =
      (.ok none, db, ["TaskList.findOne"]) := by
  simp [addUserToTaskList, h]

/-- Witness for C9: adding to a list id absent from the concrete store. -/
theorem claim_c9_witness :
    addUserToTaskList cdb (some cu1) "ghost" "u2" =
      (.ok none, cdb, ["TaskList.findOne"]) :=
  claim_c9 cdb cu1 "ghost" "u2" (by decide)

/-- Claim C10: a token that verifies successfully but whose decoded payload
lacks an id subject resolves to an anonymous user (null), not an error. -/
theorem claim_c10 (verify : String → Except String Payload) (db : DB)
    (t : String) (p : Payload) (ht : t ≠ "") (hv : verify t = .ok p)
    (hid : p.id = none) :
    getUserFromToken verify (some t) db = .ok none := by
  simp [getUserFromToken, ht, hv, hid]

/-- Witness for C10: a concrete verifier returning an id-less payload. -/
theorem claim_c10_witness :
    getUserFromToken cverifyNoId (some "T") cdb = .ok none :=
  claim_c10 cverifyNoId cdb "T" ⟨none⟩ (by decide) rfl rfl

/-- Claim C3: for an authenticated caller, myTaskLists succeeds and the
returned list holds exactly the stored task lists whose userIds contains the
caller's identifier. -/
theorem claim_c3 (db : DB) (u : User) (tl : TaskList) :
    ∃ l, (myTaskLists db (some u)).1 = .ok l ∧
      (tl ∈ l ↔ tl ∈ db.taskLists ∧ u._id ∈ tl.userIds) := by
  refine ⟨_, rfl, ?_⟩
  simp [List.mem_filter]

/-- Claim C8: TaskList.users has one entry per stored member id, each position
holding the lookup of the id at the same position of userIds; an id with no
matching user yields an absent (null) entry at its position, not an error. -/
theorem claim_c8 (db : DB) (userIds : List ObjectId) :
    (taskListUsers db userIds).length = userIds.length ∧
    (∀ i : Nat, (taskListUsers db userIds)[i]? =
      (userIds[i]?).map (fun uid => db.findUserById uid)) ∧
    (∀ (i : Nat) (uid : ObjectId), userIds[i]? = some uid →
      (∀ us ∈ db.users, us._id ≠ uid) →
      (taskListUsers db userIds)[i]? = some none) := by
  refine ⟨by simp [taskListUsers], fun i => by simp [taskListUsers],
    fun i uid hi hnone => ?_⟩
  have hu : db.findUserById uid = none := by
    have : db.users.find? (fun us => decide (us._id = uid)) = none := by
      rw [List.find?_eq_none]
      intro a ha
      simp [hnone a ha]
    exact this
  simp [taskListUsers, hi, hu]

/-- Witness for C8: on the concrete store, the id at position 1 matches no
user and resolves to an absent entry. -/
theorem claim_c8_witness :
    (taskListUsers cdb [⟨"u2"⟩, ⟨"zz"⟩])[1]? = some none :=
  (claim_c8 cdb [⟨"u2"⟩, ⟨"zz"⟩]).2.2 1 ⟨"zz"⟩ rfl (by decide)

/-- Claim C4: createTaskList by an authenticated user U returns the stored
list with userIds = [U's id] and createdAt set to the call-time stamp
(assuming, as the driver guarantees, that the generated id is fresh);
afterwards myTaskLists for U includes the new list and myTaskLists for a
user with a different identifier does not. -/
theorem claim_c4 (db : DB) (u v : User) (title now : String)
    (hfresh : ∀ tl ∈ db.taskLists, tl._id ≠ db.genOid)
    (hne : v._id ≠ u._id) :
    (createTaskList db (some u) title now).1 =
      .ok (some ⟨db.genOid, title, now, [u._id]⟩) ∧
    (∀ l, (myTaskLists (createTaskList db (some u) title now).2.1
        (some u)).1 = .ok l →
      (⟨db.genOid, title, now, [u._id]⟩ : TaskList) ∈ l) ∧
    (∀ l, (myTaskLists (createTaskList db (some u) title now).2.1
        (some v)).1 = .ok l →
      (⟨db.genOid, title, now, [u._id]⟩ : TaskList) ∉ l) := by
  have hnone : db.taskLists.find?
      (fun tl => decide (tl._id = db.genOid)) = none := by
    rw [List.find?_eq_none]
    intro a ha
    simp [hfresh a ha]
  have hfind : (db.taskLists ++
      [(⟨db.genOid, title, now, [u._id]⟩ : TaskList)]).find?
      (fun tl => decide (tl._id = db.genOid)) =
      some ⟨db.genOid, title, now, [u._id]⟩ := by
    rw [find?_append_of_none _ _ _ hnone]
    rw [List.find?_cons_of_pos _ (by simp)]
  have hmain : createTaskList db (some u) title now =
      (.ok (some ⟨db.genOid, title, now, [u._id]⟩),
       ⟨db.users, db.taskLists ++ [⟨db.genOid, title, now, [u._id]⟩],
         db.nextId + 1⟩,
       ["TaskList.insertOne", "TaskList.findOne"]) := by
    simp only [createTaskList, DB.insertTaskList, DB.findTaskListById]
    rw [hfind]
  refine ⟨by rw [hmain], fun l hl => ?_, fun l hl => ?_⟩
  · rw [hmain] at hl
    simp only [myTaskLists] at hl
    injection hl with h
    subst h
    rw [List.mem_filter]
    exact ⟨List.mem_append_right _ (by simp), by simp⟩
  · rw [hmain] at hl
    simp only [myTaskLists] at hl
    injection hl with h
    subst h
    intro hmem
    rw [List.mem_filter] at hmem
    have hv : v._id ∈ [u._id] := by simpa using hmem.2
    exact hne (by simpa using hv)

/-- Witness for C4: creating a list in the empty store. -/
theorem claim_c4_witness :
    (createTaskList cdbEmpty (some cu1) "T" "2024-02-02").1 =
      Except.ok (some ⟨DB.genOid cdbEmpty, "T", "2024-02-02", [cu1._id]⟩) :=
  (claim_c4 cdbEmpty cu1 cu2 "T" "2024-02-02" (by decide) (by decide)).1

/-- Claim C5: addUserToTaskList is idempotent — the store after calling it
twice with the same (listId, userId) equals the store after one call; and when
the userId is already a member by string form, the list is returned unchanged
with no write (the log holds only the lookup). -/
theorem claim_c5 (db : DB) (u u' : User) (listId userId : String) :
    (addUserToTaskList (addUserToTaskList db (some u) listId userId).2.1
        (some u') listId userId).2.1 =
      (addUserToTaskList db (some u) listId userId).2.1 ∧
    (∀ tl, db.findTaskListById (objectId listId) = some tl →
      (tl.userIds.find? (fun dbId => decide (dbId.toStr = userId))).isSome =
        true →
      addUserToTaskList db (some u) listId userId =
        (.ok (some tl), db, ["TaskList.findOne"])) := by
  refine ⟨?_, fun tl hfound hm => by simp [addUserToTaskList, hfound, hm]⟩
  cases hfound : db.findTaskListById (objectId listId) with
  | none =>
    have h1 : (addUserToTaskList db (some u) listId userId).2.1 = db := by
      simp [addUserToTaskList, hfound]
    rw [h1]
    simp [addUserToTaskList, hfound]
  | some tl =>
    cases hm : (tl.userIds.find?
        (fun dbId => decide (dbId.toStr = userId))).isSome with
    | true =>
      have h1 : (addUserToTaskList db (some u) listId userId).2.1 = db := by
        simp [addUserToTaskList, hfound, hm]
      rw [h1]
      simp [addUserToTaskList, hfound, hm]
    | false =>
      have h1 : (addUserToTaskList db (some u) listId userId).2.1 =
          db.pushTaskListUserId (objectId listId) (objectId userId) := by
        simp [addUserToTaskList, hfound, hm]
      have hfound' : db.taskLists.find?
          (fun x => decide (x._id = objectId listId)) = some tl := hfound
      have hfind2 : (db.pushTaskListUserId (objectId listId)
            (objectId userId)).findTaskListById (objectId listId) =
          some { tl with userIds := tl.userIds ++ [objectId userId] } := by
        show (updateFirst (fun x => decide (x._id = objectId listId))
            (fun x => { x with userIds := x.userIds ++ [objectId userId] })
            db.taskLists).find? _ = _
        rw [find?_updateFirst (fun x => decide (x._id = objectId listId))
          (fun x => { x with userIds := x.userIds ++ [objectId userId] })
          (fun x => rfl) db.taskLists, hfound']
        rfl
      have hm2 : ((tl.userIds ++ [objectId userId]).find?
            (fun dbId => decide (dbId.toStr = userId))).isSome = true := by
        rw [List.find?_isSome]
        exact ⟨objectId userId, List.mem_append_right _ (by simp),
          by simp [objectId, ObjectId.toStr]⟩
      rw [h1]
      simp only [addUserToTaskList, hfind2, hm2]
      rfl

/-- Witness for C5: adding an existing member to the concrete list is a no-op
returning the list unchanged. -/
theorem claim_c5_witness :
    addUserToTaskList cdb (some cu1) "l1" "u1" =
      (.ok (some ctl1), cdb, ["TaskList.findOne"]) :=
  (claim_c5 cdb cu1 cu2 "l1" "u1").2 ctl1 (by decide) (by decide)

/-- Claim C7: deleteTaskList returns true exactly when a stored document with
the given id was removed; once a list with that id is deleted (ids being
unique in the store), a repeated delete of the same id returns false — as does
a delete of an id that never existed. -/
theorem claim_c7 (db : DB) (u u' : User) (id : String)
    (hcount : db.taskLists.countP
      (fun tl => decide (tl._id = objectId id)) ≤ 1) :
    ((deleteTaskList db (some u) id).1 = .ok true ↔
      ∃ tl ∈ db.taskLists, tl._id = objectId id) ∧
    (deleteTaskList (deleteTaskList db (some u) id).2.1 (some u') id).1 =
      .ok false := by
  constructor
  · cases hany : db.taskLists.any (fun tl => decide (tl._id = objectId id)) with
    | true =>
      simp only [deleteTaskList, DB.deleteOneTaskList, hany]
      rw [List.any_eq_true] at hany
      simp only [decide_eq_true_eq] at hany
      simpa using hany
    | false =>
      simp only [deleteTaskList, DB.deleteOneTaskList, hany]
      rw [List.any_eq_false] at hany
      simp only [decide_eq_true_eq] at hany
      simpa using hany
  · have hc0 : ((db.taskLists.eraseP
        (fun tl => decide (tl._id = objectId id))).countP
        (fun tl => decide (tl._id = objectId id))) = 0 :=
      countP_eraseP_eq_zero _ _ hcount
    have hany2 : ((db.taskLists.eraseP
        (fun tl => decide (tl._id = objectId id))).any
        (fun tl => decide (tl._id = objectId id))) = false := by
      rw [List.any_eq_false]
      intro x hx
      exact (List.countP_eq_zero.mp hc0) x hx
    simp [deleteTaskList, DB.deleteOneTaskList, hany2]

/-- Witness for C7: deleting the concrete list succeeds once, then fails. -/
theorem claim_c7_witness :
    ((deleteTaskList cdb (some cu1) "l1").1 = .ok true ↔
      ∃ tl ∈ cdb.taskLists, tl._id = objectId "l1") ∧
    (deleteTaskList (deleteTaskList cdb (some cu1) "l1").2.1
      (some cu2) "l1").1 = .ok false :=
  claim_c7 cdb cu1 cu2 "l1" (by decide)

end Taskade
